import Mathlib

/-!
Verification of the core logic of the `gmail-mcp-server` repository
(`src/email_mcp/email_service.py` and `src/email_mcp/handlers.py`):
body extraction from a Gmail message payload tree, threaded-reply header
construction, the promotional-sender classifier, and the tool dispatcher.

Python string primitives used by the source are embedded first
(`str.lower`, `str.split`, `in` substring test, `str.startswith`,
`bytes.decode("utf-8", errors="ignore")`), then the source functions,
keeping their names (leading underscores dropped).
-/

namespace EmailMcp

/-! ### Python string primitives -/

/-- `str.lower` restricted to ASCII letters (all header text handled by the
source is ASCII; Unicode case-mapping agrees with this on that domain). -/
def lowerCh (c : Char) : Char :=
  if 'A' ≤ c && c ≤ 'Z' then Char.ofNat (c.toNat + 32) else c

/-- Python `s.lower()` (ASCII domain). -/
def pyLower (s : String) : String :=
  String.mk (s.data.map lowerCh)

/-- The six Python `str.split()` whitespace characters. -/
def pyIsSpace (c : Char) : Bool :=
  c = ' ' || c = '\t' || c = '\n' || c = '\r' || c = '\x0b' || c = '\x0c'

/-- Worker for `pySplit`: `acc` holds the current token's characters reversed. -/
def splitWsAux : List Char → List Char → List String
  | [], acc => if acc = [] then [] else [String.mk acc.reverse]
  | c :: cs, acc =>
    if pyIsSpace c then
      (if acc = [] then [] else [String.mk acc.reverse]) ++ splitWsAux cs []
    else
      splitWsAux cs (c :: acc)

/-- Python `s.split()` with no separator argument: split on runs of
whitespace, discarding empty tokens (so `s.strip().split()` is the same). -/
def pySplit (s : String) : List String :=
  splitWsAux s.data []

/-- `needle` is a leading sub-list of `hay` (Python `str.startswith`). -/
def chListLeads : List Char → List Char → Bool
  | [], _ => true
  | _ :: _, [] => false
  | a :: as, b :: bs => a = b && chListLeads as bs

/-- `needle` occurs contiguously inside `hay` (Python `in` on strings). -/
def chListHas (needle : List Char) : List Char → Bool
  | [] => chListLeads needle []
  | b :: bs => chListLeads needle (b :: bs) || chListHas needle bs

/-- Python `s.startswith(pre)`. -/
def pyStartsWith (s pre : String) : Bool :=
  chListLeads pre.data s.data

/-- Python `pre in s` (substring containment). -/
def pyContains (s pat : String) : Bool :=
  chListHas pat.data s.data

/-! ### UTF-8 decoding, `bytes.decode("utf-8", errors="ignore")`

`decIgnore` decodes a byte list, emitting a character for every valid UTF-8
sequence and dropping bytes at which no valid sequence starts; this yields
the same string as CPython's `errors="ignore"` handler (CPython skips the
maximal subpart of an invalid sequence in one step; skipping it byte by
byte emits nothing either, because a continuation byte never starts a valid
sequence).  `decStrict` is the same decoder with no error handler: it fails
(CPython raises `UnicodeDecodeError`) on the first invalid sequence. -/

/-- A UTF-8 continuation byte. -/
def contB (b : Nat) : Bool := 0x80 ≤ b && b ≤ 0xBF

/-- Second-byte restrictions ruling out overlong encodings and surrogates
for 3-byte sequences. -/
def cond3 (b0 b1 b2 : Nat) : Bool :=
  contB b1 && contB b2 && (b0 != 0xE0 || 0xA0 ≤ b1) && (b0 != 0xED || b1 ≤ 0x9F)

/-- Second-byte restrictions ruling out overlong encodings and code points
above U+10FFFF for 4-byte sequences. -/
def cond4 (b0 b1 b2 b3 : Nat) : Bool :=
  contB b1 && contB b2 && contB b3 && (b0 != 0xF0 || 0x90 ≤ b1) && (b0 != 0xF4 || b1 ≤ 0x8F)

/-- Code point of a 2-byte sequence. -/
def cp2 (b0 b1 : Nat) : Nat := (b0 - 0xC0) * 0x40 + (b1 - 0x80)

/-- Code point of a 3-byte sequence. -/
def cp3 (b0 b1 b2 : Nat) : Nat := (b0 - 0xE0) * 0x1000 + (b1 - 0x80) * 0x40 + (b2 - 0x80)

/-- Code point of a 4-byte sequence. -/
def cp4 (b0 b1 b2 b3 : Nat) : Nat :=
  (b0 - 0xF0) * 0x40000 + (b1 - 0x80) * 0x1000 + (b2 - 0x80) * 0x40 + (b3 - 0x80)

/-- UTF-8 decoding with `errors="ignore"`, fuelled so the recursion is
structural (each step consumes at least one byte and one unit of fuel, so
fuel equal to the byte count always suffices). Invalid bytes are dropped. -/
def decIgnoreAux : Nat → List Nat → List Char
  | 0, _ => []
  | _, [] => []
  | fuel + 1, b0 :: rest =>
    if b0 < 0x80 then
      Char.ofNat b0 :: decIgnoreAux fuel rest
    else if 0xC2 ≤ b0 && b0 ≤ 0xDF then
      match rest with
      | b1 :: rest2 =>
        if contB b1 then Char.ofNat (cp2 b0 b1) :: decIgnoreAux fuel rest2
        else decIgnoreAux fuel rest
      | [] => []
    else if 0xE0 ≤ b0 && b0 ≤ 0xEF then
      match rest with
      | b1 :: b2 :: rest3 =>
        if cond3 b0 b1 b2 then Char.ofNat (cp3 b0 b1 b2) :: decIgnoreAux fuel rest3
        else decIgnoreAux fuel rest
      | _ => decIgnoreAux fuel rest
    else if 0xF0 ≤ b0 && b0 ≤ 0xF4 then
      match rest with
      | b1 :: b2 :: b3 :: rest4 =>
        if cond4 b0 b1 b2 b3 then Char.ofNat (cp4 b0 b1 b2 b3) :: decIgnoreAux fuel rest4
        else decIgnoreAux fuel rest
      | _ => decIgnoreAux fuel rest
    else
      decIgnoreAux fuel rest

/-- UTF-8 decoding with `errors="ignore"`: invalid bytes are dropped. -/
def decIgnore (bs : List Nat) : List Char :=
  decIgnoreAux bs.length bs

/-- Strict UTF-8 decoding (no error handler), fuelled like `decIgnoreAux`:
`none` models the `UnicodeDecodeError` CPython raises on the first invalid
sequence. -/
def decStrictAux : Nat → List Nat → Option (List Char)
  | 0, bs => if bs = [] then some [] else none
  | _, [] => some []
  | fuel + 1, b0 :: rest =>
    if b0 < 0x80 then
      (decStrictAux fuel rest).map (Char.ofNat b0 :: ·)
    else if 0xC2 ≤ b0 && b0 ≤ 0xDF then
      match rest with
      | b1 :: rest2 =>
        if contB b1 then (decStrictAux fuel rest2).map (Char.ofNat (cp2 b0 b1) :: ·)
        else none
      | [] => none
    else if 0xE0 ≤ b0 && b0 ≤ 0xEF then
      match rest with
      | b1 :: b2 :: rest3 =>
        if cond3 b0 b1 b2 then (decStrictAux fuel rest3).map (Char.ofNat (cp3 b0 b1 b2) :: ·)
        else none
      | _ => none
    else if 0xF0 ≤ b0 && b0 ≤ 0xF4 then
      match rest with
      | b1 :: b2 :: b3 :: rest4 =>
        if cond4 b0 b1 b2 b3 then (decStrictAux fuel rest4).map (Char.ofNat (cp4 b0 b1 b2 b3) :: ·)
        else none
      | _ => none
    else
      none

/-- Strict UTF-8 decoding (no error handler): fails on invalid bytes. -/
def decStrict (bs : List Nat) : Option (List Char) :=
  decStrictAux bs.length bs

/-- `base64.urlsafe_b64decode(data).decode("utf-8", errors="ignore")` acting
on the already-base64-decoded raw body bytes (the base64 transport encoding
is the backend's wire format; the tree model below carries the decoded
bytes directly as `rawBodyBytes`). -/
def utf8DecodeIgnore (bs : List Nat) : String :=
  String.mk (decIgnore bs)

/-! ### The message payload tree (`MessagePart`)

A Gmail API payload node as traversed by `_extract_body_from_payload`:
`mimeType` (`payload.get("mimeType", "")`), an optional raw body
(`payload["body"]["data"]`, carried here as the base64url-decoded bytes),
and the child parts (`payload.get("parts")`, `[]` when the key is absent —
both forms make the two scanning loops vacuous). -/

inductive Payload where
  | mk : String → Option (List Nat) → List Payload → Payload

/-- `payload.get("mimeType", "")`. -/
@[simp] def Payload.mimeType : Payload → String
  | .mk m _ _ => m

/-- The decoded bytes of `payload["body"]["data"]`, `none` when the `body`
or `data` key is absent. -/
@[simp] def Payload.bodyData : Payload → Option (List Nat)
  | .mk _ d _ => d

/-- `payload.get("parts", [])`. -/
@[simp] def Payload.parts : Payload → List Payload
  | .mk _ _ ps => ps

mutual

/-- `_extract_body_from_payload` (email_service.py lines 191-223):
decode a `text/plain` node's own data if present, else scan the parts —
first only the `text/plain`-typed ones, then all of them. -/
def extract_body_from_payload : Payload → String
  | .mk mime dat parts =>
    match dat with
    | some bs =>
      if mime = "text/plain" then
        utf8DecodeIgnore bs
      else
        let r1 := extractFirstPass parts
        if r1 ≠ "" then r1
        else
          let r2 := extractSecondPass parts
          if r2 ≠ "" then r2 else ""
    | none =>
      let r1 := extractFirstPass parts
      if r1 ≠ "" then r1
      else
        let r2 := extractSecondPass parts
        if r2 ≠ "" then r2 else ""

/-- The first loop of lines 210-215: recurse only into parts whose
`mimeType` is `"text/plain"`, returning the first non-empty result. -/
def extractFirstPass : List Payload → String
  | [] => ""
  | q :: rest =>
    if q.mimeType = "text/plain" then
      let r := extract_body_from_payload q
      if r ≠ "" then r else extractFirstPass rest
    else
      extractFirstPass rest

/-- The second loop of lines 218-221: recurse into every part, returning
the first non-empty result. -/
def extractSecondPass : List Payload → String
  | [] => ""
  | q :: rest =>
    let r := extract_body_from_payload q
    if r ≠ "" then r else extractSecondPass rest

end

mutual

/-- All nodes of a payload tree (the node itself and its descendants),
in document order. -/
def allNodes : Payload → List Payload
  | .mk m d ps => .mk m d ps :: allNodesList ps

/-- All nodes of a forest of payload trees, in document order. -/
def allNodesList : List Payload → List Payload
  | [] => []
  | q :: rest => allNodes q ++ allNodesList rest

end

/-- The `MessagePart` invariant of the spec's data model: raw body bytes are
present only on leaf parts (a node carrying data has no children). -/
def leafDataInvariant (p : Payload) : Prop :=
  ∀ q ∈ allNodes p, ∀ bs, q.bodyData = some bs → q.parts = []

/-- A Gmail message as consumed by `_get_message_body`: its payload tree
(`message.get("payload", {})`) and its preview snippet
(`message.get("snippet", "")`). -/
structure GmailMessage where
  payload : Payload
  snippet : String

/-- `_get_message_body` (email_service.py lines 170-188): extract the body
from the payload tree, falling back to the snippet when that is empty. -/
def get_message_body (m : GmailMessage) : String :=
  let body := extract_body_from_payload m.payload
  if body = "" then m.snippet else body

/-! ### Header lookup and threaded-reply construction -/

/-- A header list: ordered `(name, value)` pairs (the Gmail API's list of
`{"name": ..., "value": ...}` dictionaries). -/
def HeaderSet := List (String × String)

/-- `_get_header` (email_service.py lines 154-167): value of the first
header whose name matches case-insensitively, else the empty string. -/
def get_header : List (String × String) → String → String
  | [], _ => ""
  | (n, v) :: rest, name =>
    if pyLower n = pyLower name then v else get_header rest name

/-- The reply draft data computed by `create_draft_reply` before MIME
encoding: recipient, normalized subject, threading headers, body.  (The
`In-Reply-To`/`References` MIME headers are only emitted when non-empty;
the fields here hold the computed values.) -/
structure ReplyDraft where
  to_addr : String
  subject : String
  inReplyTo : String
  references : String
  body : String
deriving DecidableEq

/-- The subject normalization of email_service.py lines 116-118: prepend
`"Re: "` unless the subject is empty or already starts with `"re:"`
case-insensitively. -/
def replySubject (subject : String) : String :=
  if subject ≠ "" ∧ pyStartsWith (pyLower subject) "re:" = false then
    "Re: " ++ subject
  else
    subject

/-- Lines 100-129 of `create_draft_reply`: derive recipient, subject,
`In-Reply-To` and `References` from the headers of the message being
replied to. -/
def buildReplyHeaders (headers : List (String × String)) (reply_body : String) : ReplyDraft :=
  let to_addr := get_header headers "From"
  let subject := get_header headers "Subject"
  let message_id := get_header headers "Message-ID"
  let references := get_header headers "References"
  let new_references :=
    if references ≠ "" then
      let references_list := pySplit references
      let references_list :=
        if message_id ≠ "" ∧ message_id ∉ references_list then
          references_list ++ [message_id]
        else
          references_list
      String.intercalate " " references_list
    else
      if message_id ≠ "" then message_id else ""
  { to_addr := to_addr
    subject := replySubject subject
    inReplyTo := message_id
    references := new_references
    body := reply_body }

/-- `create_draft_reply` (email_service.py lines 71-151) up to the MIME
encoding and backend draft call: the thread's fetched messages are passed
as their header lists (the collaborator's `thread["messages"]`); an empty
history raises `ValueError` (the spec's `MissingThreadData`), otherwise the
draft is built from the last message's headers. -/
def create_draft_reply (thread_id : String) (messages : List (List (String × String)))
    (reply_body : String) : Except String ReplyDraft :=
  match messages.getLast? with
  | none => .error ("No messages found in thread " ++ thread_id)
  | some headers => .ok (buildReplyHeaders headers reply_body)

/-! ### Promotional classifier -/

/-- Modelled from the spec: the promotional classifier backing the
`debug_email_filtering` tool (`email_service.debug_email_filtering`) is not
among the source files; only its caller `handle_call_tool` (handlers.py
lines 130-150, reading `is_promotional` and `matched_patterns`) is.  Per
spec section 4.4, the vocabulary of automated-mail indicators, in order. -/
def PROMO_PATTERNS : List String :=
  ["noreply", "no-reply", "donotreply", "newsletter", "marketing",
   "promo", "automated", "notification", "alert", "support"]

/-- `ClassificationResult` of the spec's data model. -/
structure ClassificationResult where
  fromAddress : String
  is_promotional : Bool
  matched_patterns : List String
deriving DecidableEq

/-- Modelled from the spec: `classify` lower-cases the sender address,
tests substring containment against `PROMO_PATTERNS`, keeps every matching
pattern in vocabulary order, and flags iff some pattern matched. -/
def classify (fromAddress : String) : ClassificationResult :=
  let lowered := pyLower fromAddress
  let ms := PROMO_PATTERNS.filter (fun p => pyContains lowered p)
  { fromAddress := fromAddress, is_promotional := !ms.isEmpty, matched_patterns := ms }

/-! ### Tool dispatch of `get_unread_emails` (handlers.py)

`handle_call_tool`'s `get_unread_emails` branch (handlers.py lines 92-112)
calls `email_service.fetch_unread_emails(limit, folder)` with two
positional arguments, while the service defines
`async def fetch_unread_emails(limit: int = 10)` (email_service.py line 9).
The embedding models Python call semantics for positional arguments: a call
with more positional arguments than parameters raises `TypeError` before
the body runs. -/

/-- A Python value as passed in a tool-call arguments dictionary. -/
inductive PyValue where
  | int : Int → PyValue
  | str : String → PyValue
deriving DecidableEq

/-- Python `arguments.get(key, default)`. -/
def dictGet (d : List (String × PyValue)) (key : String) (dflt : PyValue) : PyValue :=
  match d.find? (fun kv => kv.1 = key) with
  | some kv => kv.2
  | none => dflt

/-- The parameter list of `async def fetch_unread_emails(limit: int = 10)`
(email_service.py line 9). -/
def fetch_unread_emails_params : List String := ["limit"]

/-- Calling `fetch_unread_emails` with a list of positional arguments:
Python raises `TypeError` when more positional arguments are passed than
the function has parameters.  (The accepted branch stands for the
function's body, which performs Gmail API I/O and returns the email
listing; the theorems below show the handler never reaches it.) -/
def call_fetch_unread_emails (posArgs : List PyValue) : Except String (List String) :=
  if posArgs.length ≤ fetch_unread_emails_params.length then
    .ok []
  else
    .error ("TypeError: fetch_unread_emails() takes from 0 to 1 positional arguments but "
      ++ toString posArgs.length ++ " were given")

/-- The `get_unread_emails` branch of `handle_call_tool` (handlers.py lines
92-112): read `limit` and `folder` from the arguments with their defaults,
call the service with both as positional arguments, and format the
resulting listing; an exception propagates to the caller as an error. -/
def handle_get_unread_emails (arguments : List (String × PyValue)) : Except String String :=
  let limit := dictGet arguments "limit" (.int 10)
  let folder := dictGet arguments "folder" (.str "[Gmail]/Important")
  match call_fetch_unread_emails [limit, folder] with
  | .error e => .error e
  | .ok emails =>
    if emails.isEmpty then
      .ok "No unread emails found"
    else
      .ok ("Found " ++ toString emails.length ++ " unread email(s):\n\n"
        ++ String.intercalate "\n\n" emails)

/-! ### Structural lemmas about the payload traversal -/

lemma allNodes_mk (m : String) (d : Option (List Nat)) (ps : List Payload) :
    allNodes (.mk m d ps) = .mk m d ps :: allNodesList ps := by
  simp [allNodes]

lemma self_mem_allNodes (p : Payload) : p ∈ allNodes p := by
  obtain ⟨m, d, ps⟩ := p
  rw [allNodes_mk]
  exact List.mem_cons_self _ _

lemma mem_allNodesList_of_mem {ps : List Payload} {q r : Payload}
    (hq : q ∈ ps) (hr : r ∈ allNodes q) : r ∈ allNodesList ps := by
  induction ps with
  | nil => cases hq
  | cons a as ih =>
    rw [show allNodesList (a :: as) = allNodes a ++ allNodesList as by simp [allNodesList]]
    rcases List.mem_cons.mp hq with h | h
    · exact List.mem_append_left _ (h ▸ hr)
    · exact List.mem_append_right _ (ih h)

lemma mem_allNodes_of_child {m : String} {d : Option (List Nat)} {ps : List Payload}
    {q r : Payload} (hq : q ∈ ps) (hr : r ∈ allNodes q) : r ∈ allNodes (.mk m d ps) := by
  rw [allNodes_mk]
  exact List.mem_cons_of_mem _ (mem_allNodesList_of_mem hq hr)

lemma mem_allNodesList_elim {ps : List Payload} {r : Payload}
    (hr : r ∈ allNodesList ps) : ∃ q ∈ ps, r ∈ allNodes q := by
  induction ps with
  | nil => simp [allNodesList] at hr
  | cons a as ih =>
    rw [show allNodesList (a :: as) = allNodes a ++ allNodesList as by simp [allNodesList]] at hr
    rcases List.mem_append.mp hr with h | h
    · exact ⟨a, List.mem_cons_self _ _, h⟩
    · obtain ⟨q, hq, hrq⟩ := ih h
      exact ⟨q, List.mem_cons_of_mem _ hq, hrq⟩

lemma mem_allNodes_mk_elim {m : String} {d : Option (List Nat)} {ps : List Payload}
    {r : Payload} (hr : r ∈ allNodes (.mk m d ps)) :
    r = .mk m d ps ∨ ∃ q ∈ ps, r ∈ allNodes q := by
  rw [allNodes_mk] at hr
  rcases List.mem_cons.mp hr with h | h
  · exact Or.inl h
  · exact Or.inr (mem_allNodesList_elim h)

lemma leafDataInvariant_child {m : String} {d : Option (List Nat)} {ps : List Payload}
    (h : leafDataInvariant (.mk m d ps)) {c : Payload} (hc : c ∈ ps) :
    leafDataInvariant c :=
  fun q hq bs hbs => h q (mem_allNodes_of_child hc hq) bs hbs

/-- Unfolding of `_extract_body_from_payload` at a node carrying data. -/
lemma extract_mk_some (m : String) (bs : List Nat) (ps : List Payload) :
    extract_body_from_payload (.mk m (some bs) ps) =
      if m = "text/plain" then utf8DecodeIgnore bs
      else if extractFirstPass ps ≠ "" then extractFirstPass ps
      else if extractSecondPass ps ≠ "" then extractSecondPass ps else "" := by
  rw [extract_body_from_payload]

/-- Unfolding of `_extract_body_from_payload` at a node without data. -/
lemma extract_mk_none (m : String) (ps : List Payload) :
    extract_body_from_payload (.mk m none ps) =
      if extractFirstPass ps ≠ "" then extractFirstPass ps
      else if extractSecondPass ps ≠ "" then extractSecondPass ps else "" := by
  rw [extract_body_from_payload]

/-- The first pass either fails or returns the non-empty extraction of a
`text/plain`-typed part. -/
lemma extractFirstPass_cases (ps : List Payload) :
    extractFirstPass ps = "" ∨
      ∃ q ∈ ps, q.mimeType = "text/plain" ∧
        extractFirstPass ps = extract_body_from_payload q ∧
        extract_body_from_payload q ≠ "" := by
  induction ps with
  | nil => exact Or.inl (by rw [extractFirstPass])
  | cons a as ih =>
    obtain ⟨am, ad, aps⟩ := a
    have hval : extractFirstPass (Payload.mk am ad aps :: as) =
        if am = "text/plain" then
          (if extract_body_from_payload (.mk am ad aps) ≠ "" then
            extract_body_from_payload (.mk am ad aps)
          else extractFirstPass as)
        else extractFirstPass as := by
      rw [extractFirstPass]
      rfl
    by_cases hm : am = "text/plain"
    · by_cases hr : extract_body_from_payload (.mk am ad aps) = ""
      · rw [hval, if_pos hm, if_neg (by simpa using hr)]
        rcases ih with h | ⟨q, hq, h1, h2, h3⟩
        · exact Or.inl h
        · exact Or.inr ⟨q, List.mem_cons_of_mem _ hq, h1, h2, h3⟩
      · refine Or.inr ⟨_, List.mem_cons_self _ _, by simpa using hm, ?_, hr⟩
        rw [hval, if_pos hm, if_pos hr]
    · rw [hval, if_neg hm]
      rcases ih with h | ⟨q, hq, h1, h2, h3⟩
      · exact Or.inl h
      · exact Or.inr ⟨q, List.mem_cons_of_mem _ hq, h1, h2, h3⟩

/-- The second pass either fails or returns the non-empty extraction of
some part. -/
lemma extractSecondPass_cases (ps : List Payload) :
    extractSecondPass ps = "" ∨
      ∃ q ∈ ps, extractSecondPass ps = extract_body_from_payload q ∧
        extract_body_from_payload q ≠ "" := by
  induction ps with
  | nil => exact Or.inl (by rw [extractSecondPass])
  | cons a as ih =>
    rw [extractSecondPass]
    by_cases hr : extract_body_from_payload a = ""
    · simp only [hr, ne_eq, not_true_eq_false, if_false]
      rcases ih with h | ⟨q, hq, h1, h2⟩
      · exact Or.inl (by simpa [hr] using h)
      · exact Or.inr ⟨q, List.mem_cons_of_mem _ hq, by simpa [hr] using h1, h2⟩
    · refine Or.inr ⟨a, List.mem_cons_self _ _, ?_, hr⟩
      simp [hr]

/-- The second pass succeeds as soon as some part extracts non-empty. -/
lemma extractSecondPass_ne_empty {ps : List Payload} {q : Payload}
    (hq : q ∈ ps) (hne : extract_body_from_payload q ≠ "") :
    extractSecondPass ps ≠ "" := by
  induction ps with
  | nil => cases hq
  | cons a as ih =>
    rw [extractSecondPass]
    by_cases hr : extract_body_from_payload a = ""
    · simp only [hr, ne_eq, not_true_eq_false, if_false]
      rcases List.mem_cons.mp hq with h | h
      · exact absurd (h ▸ hne) (by simp [hr])
      · simpa [hr] using ih h
    · simp [hr]

/-- Soundness of the extraction: a non-empty result is always the decoded
raw bytes of some `text/plain`-typed node of the tree. -/
theorem extract_sound (p : Payload) (hne : extract_body_from_payload p ≠ "") :
    ∃ q ∈ allNodes p, q.mimeType = "text/plain" ∧
      ∃ bs, q.bodyData = some bs ∧
        extract_body_from_payload p = utf8DecodeIgnore bs := by
  have key : ∀ n : Nat, ∀ p : Payload, sizeOf p ≤ n →
      extract_body_from_payload p ≠ "" →
      ∃ q ∈ allNodes p, q.mimeType = "text/plain" ∧
        ∃ bs, q.bodyData = some bs ∧
          extract_body_from_payload p = utf8DecodeIgnore bs := by
    intro n
    induction n with
    | zero =>
      intro p hsz
      obtain ⟨m, d, ps⟩ := p
      simp [Payload.mk.sizeOf_spec] at hsz
    | succ n ih =>
      intro p hsz hne
      obtain ⟨m, d, ps⟩ := p
      have hps : sizeOf ps ≤ n := by
        simp [Payload.mk.sizeOf_spec] at hsz
        omega
      have fromParts :
          (extract_body_from_payload (.mk m d ps) =
            (if extractFirstPass ps ≠ "" then extractFirstPass ps
             else if extractSecondPass ps ≠ "" then extractSecondPass ps else "")) →
          ∃ q ∈ allNodes (Payload.mk m d ps), q.mimeType = "text/plain" ∧
            ∃ bs, q.bodyData = some bs ∧
              extract_body_from_payload (.mk m d ps) = utf8DecodeIgnore bs := by
        intro hval
        have hcase :
            ∃ c ∈ ps, extract_body_from_payload (.mk m d ps) =
              extract_body_from_payload c ∧ extract_body_from_payload c ≠ "" := by
          by_cases hF : extractFirstPass ps = ""
          · by_cases hS : extractSecondPass ps = ""
            · exact absurd (by rw [hval]; simp [hF, hS]) hne
            · rcases extractSecondPass_cases ps with h | ⟨c, hc, h1, h2⟩
              · exact absurd h hS
              · exact ⟨c, hc, by rw [hval]; simp [hF, hS]; exact h1, h2⟩
          · rcases extractFirstPass_cases ps with h | ⟨c, hc, _, h2, h3⟩
            · exact absurd h hF
            · exact ⟨c, hc, by rw [hval]; simp [hF]; exact h2, h3⟩
        obtain ⟨c, hc, hval2, hcne⟩ := hcase
        have hszc : sizeOf c ≤ n :=
          Nat.le_of_lt_succ (Nat.lt_of_lt_of_le (List.sizeOf_lt_of_mem hc)
            (Nat.le_trans hps (Nat.le_succ n)))
        obtain ⟨q, hqmem, hqmime, bs, hqbs, hqval⟩ := ih c hszc hcne
        exact ⟨q, mem_allNodes_of_child hc hqmem, hqmime, bs, hqbs, by rw [hval2, hqval]⟩
      match d with
      | some bs =>
        by_cases hm : m = "text/plain"
        · refine ⟨.mk m (some bs) ps, self_mem_allNodes _, by simpa using hm, bs, by simp, ?_⟩
          rw [extract_mk_some, if_pos hm]
        · exact fromParts (by rw [extract_mk_some, if_neg hm])
      | none =>
        exact fromParts (by rw [extract_mk_none])
  exact key (sizeOf p) p (Nat.le_refl _) hne

/-- Completeness of the extraction under the leaf-data invariant: if some
`text/plain` node's bytes decode to non-empty text, the extraction does not
return the empty string. -/
theorem extract_complete (p : Payload) (hinv : leafDataInvariant p)
    (hw : ∃ q ∈ allNodes p, q.mimeType = "text/plain" ∧
      ∃ bs, q.bodyData = some bs ∧ utf8DecodeIgnore bs ≠ "") :
    extract_body_from_payload p ≠ "" := by
  have key : ∀ n : Nat, ∀ p : Payload, sizeOf p ≤ n → leafDataInvariant p →
      (∃ q ∈ allNodes p, q.mimeType = "text/plain" ∧
        ∃ bs, q.bodyData = some bs ∧ utf8DecodeIgnore bs ≠ "") →
      extract_body_from_payload p ≠ "" := by
    intro n
    induction n with
    | zero =>
      intro p hsz
      obtain ⟨m, d, ps⟩ := p
      simp [Payload.mk.sizeOf_spec] at hsz
    | succ n ih =>
      intro p hsz hinv hw
      obtain ⟨m, d, ps⟩ := p
      obtain ⟨q, hqmem, hqmime, bs, hqbs, hqne⟩ := hw
      rcases mem_allNodes_mk_elim hqmem with hq | ⟨c, hc, hqc⟩
      · subst hq
        have hd : d = some bs := by simpa using hqbs
        have hm : m = "text/plain" := by simpa using hqmime
        subst hd
        rw [extract_mk_some, if_pos hm]
        exact hqne
      · have hd : d = none := by
          cases d with
          | none => rfl
          | some bs' =>
            have : ps = [] :=
              hinv (.mk m (some bs') ps) (self_mem_allNodes _) bs' (by simp)
            rw [this] at hc
            cases hc
        subst hd
        have hszc : sizeOf c ≤ n := by
          have h1 : sizeOf c < sizeOf ps := List.sizeOf_lt_of_mem hc
          simp [Payload.mk.sizeOf_spec] at hsz
          omega
        have hcne : extract_body_from_payload c ≠ "" :=
          ih c hszc (leafDataInvariant_child hinv hc) ⟨q, hqc, hqmime, bs, hqbs, hqne⟩
        rw [extract_mk_none]
        by_cases hF : extractFirstPass ps = ""
        · have hS : extractSecondPass ps ≠ "" := extractSecondPass_ne_empty hc hcne
          simp [hF, hS]
        · simp [hF]
  exact key (sizeOf p) p (Nat.le_refl _) hinv hw

end EmailMcp


/-! ## The claims -/

namespace EmailMcp

/-- C1 (counterexample): a tree consisting of a single `text/html` leaf with
non-empty raw body bytes (decoding to "Hi") extracts to the empty string,
not to the decoded html text — the traversal decodes only `text/plain`
nodes, so there is no html fallback. -/
theorem c1_counterexample :
    extract_body_from_payload (Payload.mk "text/html" (some [72, 105]) []) = "" ∧
    utf8DecodeIgnore [72, 105] = "Hi" ∧ ("" : String) ≠ "Hi" := by
  refine ⟨?_, by decide, by decide⟩
  rw [extract_mk_some, if_neg (by decide)]
  simp [extractFirstPass, extractSecondPass]

/-- C1 (amended): for every MessagePart tree all of whose data-bearing
nodes have content type `text/html`, `extractBody`
(`_extract_body_from_payload`) returns the empty string — the second-pass
fallback recurses into all children but only `text/plain` bytes are ever
decoded, so no html text is returned and the caller falls back to the
snippet. -/
theorem c1_html_only_extracts_empty (p : Payload)
    (h : ∀ q ∈ allNodes p, ∀ bs, q.bodyData = some bs → q.mimeType = "text/html") :
    extract_body_from_payload p = "" := by
  by_contra hne
  obtain ⟨q, hq, hmime, bs, hbs, _⟩ := extract_sound p hne
  have hh := h q hq bs hbs
  exact absurd (hh.symm.trans hmime) (by decide)

/-- C1 (witness): the amended theorem applied to the single-html-leaf tree. -/
theorem c1_witness :
    extract_body_from_payload (Payload.mk "text/html" (some [60, 112, 62]) []) = "" := by
  apply c1_html_only_extracts_empty
  intro q hq bs hbs
  simp [allNodes, allNodesList] at hq
  subst hq
  rfl

/-- C2: the promotional classifier lower-cases the sender address, returns
exactly the vocabulary patterns contained in it (every match, in vocabulary
order), flags iff some pattern matched; `newsletter@shop.example.com` is
flagged with `"newsletter"` among the matches and `jane.doe@company.com`
is not flagged with no matches. -/
theorem c2_classifier_spec :
    (∀ s : String,
      (classify s).matched_patterns =
        PROMO_PATTERNS.filter (fun p => pyContains (pyLower s) p) ∧
      ((classify s).is_promotional = true ↔ (classify s).matched_patterns ≠ []) ∧
      (∀ p ∈ PROMO_PATTERNS, pyContains (pyLower s) p = true →
        p ∈ (classify s).matched_patterns)) ∧
    (classify "newsletter@shop.example.com").is_promotional = true ∧
    "newsletter" ∈ (classify "newsletter@shop.example.com").matched_patterns ∧
    (classify "jane.doe@company.com").is_promotional = false ∧
    (classify "jane.doe@company.com").matched_patterns = [] := by
  refine ⟨?_, by decide, by decide, by decide, by decide⟩
  intro s
  refine ⟨rfl, ?_, ?_⟩
  · cases h : PROMO_PATTERNS.filter (fun p => pyContains (pyLower s) p) <;>
      simp [classify, h]
  · intro p hp hc
    simp only [classify]
    exact List.mem_filter.mpr ⟨hp, hc⟩

/-- C2 (witness): the completeness clause of the classifier theorem applied
to the newsletter address and the `"newsletter"` pattern. -/
theorem c2_witness :
    "newsletter" ∈ (classify "newsletter@shop.example.com").matched_patterns :=
  (c2_classifier_spec.1 "newsletter@shop.example.com").2.2 "newsletter"
    (by decide) (by decide)

/-- C3: for every arguments dictionary, the `get_unread_emails` branch of
`handle_call_tool` fails: it passes two positional arguments (`limit`,
`folder`) to `fetch_unread_emails`, which is declared with the single
parameter `limit`, so the call raises `TypeError` and no email listing is
ever produced. -/
theorem c3_get_unread_emails_always_fails (arguments : List (String × PyValue)) :
    handle_get_unread_emails arguments =
      .error ("TypeError: fetch_unread_emails() takes from 0 to 1 positional arguments but 2 were given") := by
  simp [handle_get_unread_emails, call_fetch_unread_emails, fetch_unread_emails_params,
    dictGet]
  decide

/-- C4: reply construction tokenizes the existing References header on
whitespace, appends the Message-ID only when non-empty and not already a
token, joins with single spaces, and degrades to the Message-ID alone when
References is empty; on the headers of the worked example it yields subject
`Re: Project Update`, In-Reply-To `<a@x>` and References `<z@x> <a@x>`. -/
theorem c4_references_construction :
    (∀ (headers : List (String × String)) (b : String),
      (get_header headers "References" = "" →
        (buildReplyHeaders headers b).references = get_header headers "Message-ID") ∧
      (get_header headers "References" ≠ "" →
        (buildReplyHeaders headers b).references =
          String.intercalate " "
            (pySplit (get_header headers "References") ++
              (if get_header headers "Message-ID" ≠ "" ∧
                  get_header headers "Message-ID" ∉ pySplit (get_header headers "References")
                then [get_header headers "Message-ID"] else [])))) ∧
    buildReplyHeaders
        [("Subject", "Project Update"), ("Message-ID", "<a@x>"), ("References", "<z@x>")]
        "hello" =
      { to_addr := "", subject := "Re: Project Update", inReplyTo := "<a@x>",
        references := "<z@x> <a@x>", body := "hello" } := by
  refine ⟨?_, by decide⟩
  intro headers b
  constructor
  · intro h
    by_cases hm : get_header headers "Message-ID" = "" <;>
      simp [buildReplyHeaders, h, hm]
  · intro h
    by_cases hc : get_header headers "Message-ID" ≠ "" ∧
        get_header headers "Message-ID" ∉ pySplit (get_header headers "References") <;>
      simp [buildReplyHeaders, h, hc]

/-- C4 (witness): the non-empty-References clause applied to the worked
example headers. -/
theorem c4_witness :
    (buildReplyHeaders
        [("Subject", "Project Update"), ("Message-ID", "<a@x>"), ("References", "<z@x>")]
        "hello").references =
      String.intercalate " "
        (pySplit (get_header
            [("Subject", "Project Update"), ("Message-ID", "<a@x>"), ("References", "<z@x>")]
            "References") ++
          (if get_header
                [("Subject", "Project Update"), ("Message-ID", "<a@x>"), ("References", "<z@x>")]
                "Message-ID" ≠ "" ∧
              get_header
                [("Subject", "Project Update"), ("Message-ID", "<a@x>"), ("References", "<z@x>")]
                "Message-ID" ∉
                pySplit (get_header
                  [("Subject", "Project Update"), ("Message-ID", "<a@x>"), ("References", "<z@x>")]
                  "References")
            then [get_header
                [("Subject", "Project Update"), ("Message-ID", "<a@x>"), ("References", "<z@x>")]
                "Message-ID"] else [])) :=
  (c4_references_construction.1
    [("Subject", "Project Update"), ("Message-ID", "<a@x>"), ("References", "<z@x>")]
    "hello").2 (by decide)

/-- C5: for every MessagePart tree satisfying the leaf-data invariant and
containing a `text/plain` leaf with non-empty decoded body, the extraction
returns a non-empty string which is exactly the decoded text of some
`text/plain` leaf of the tree (the one selected by the two-pass order) —
never the text of a `text/html` part. -/
theorem c5_plain_leaf_extracted (p : Payload) (hinv : leafDataInvariant p)
    (hw : ∃ q ∈ allNodes p, q.parts = [] ∧ q.mimeType = "text/plain" ∧
      ∃ bs, q.bodyData = some bs ∧ utf8DecodeIgnore bs ≠ "") :
    extract_body_from_payload p ≠ "" ∧
    ∃ q ∈ allNodes p, q.parts = [] ∧ q.mimeType = "text/plain" ∧
      ∃ bs, q.bodyData = some bs ∧
        extract_body_from_payload p = utf8DecodeIgnore bs := by
  have hne : extract_body_from_payload p ≠ "" := by
    apply extract_complete p hinv
    obtain ⟨q, hq, _, hm, bs, hbs, hd⟩ := hw
    exact ⟨q, hq, hm, bs, hbs, hd⟩
  refine ⟨hne, ?_⟩
  obtain ⟨q, hq, hm, bs, hbs, hval⟩ := extract_sound p hne
  exact ⟨q, hq, hinv q hq bs hbs, hm, bs, hbs, hval⟩

/-- C5 (witness): the theorem applied to a `multipart/alternative` tree
with an html part before a plain part (plain bytes decode to "Hello"). -/
theorem c5_witness :
    extract_body_from_payload
      (Payload.mk "multipart/alternative" none
        [Payload.mk "text/html" (some [60, 112, 62]) [],
         Payload.mk "text/plain" (some [72, 101, 108, 108, 111]) []]) ≠ "" ∧
    ∃ q ∈ allNodes
        (Payload.mk "multipart/alternative" none
          [Payload.mk "text/html" (some [60, 112, 62]) [],
           Payload.mk "text/plain" (some [72, 101, 108, 108, 111]) []]),
      q.parts = [] ∧ q.mimeType = "text/plain" ∧
      ∃ bs, q.bodyData = some bs ∧
        extract_body_from_payload
          (Payload.mk "multipart/alternative" none
            [Payload.mk "text/html" (some [60, 112, 62]) [],
             Payload.mk "text/plain" (some [72, 101, 108, 108, 111]) []]) =
          utf8DecodeIgnore bs := by
  apply c5_plain_leaf_extracted
  · intro q hq bs hbs
    simp [allNodes, allNodesList] at hq
    rcases hq with h | h | h <;> subst h <;> simp_all
  · refine ⟨Payload.mk "text/plain" (some [72, 101, 108, 108, 111]) [], ?_, rfl, rfl,
      [72, 101, 108, 108, 111], rfl, by decide⟩
    simp [allNodes, allNodesList]

/-- C6: appending the parent Message-ID to the References chain is
idempotent — when the whitespace-tokenized References value already
contains the Message-ID as a token, the constructed references string is
the space-join of exactly the original token sequence (nothing appended). -/
theorem c6_references_idempotent (headers : List (String × String)) (b : String)
    (h : get_header headers "Message-ID" ∈ pySplit (get_header headers "References")) :
    (buildReplyHeaders headers b).references =
      String.intercalate " " (pySplit (get_header headers "References")) := by
  have href : get_header headers "References" ≠ "" := by
    intro h0
    rw [h0] at h
    simp [pySplit, splitWsAux] at h
  simp [buildReplyHeaders, href, h]

/-- C6 (witness): the idempotence theorem applied to headers whose
References chain already ends with the Message-ID. -/
theorem c6_witness :
    (buildReplyHeaders [("Message-ID", "<a@x>"), ("References", "<z@x> <a@x>")]
        "hi").references =
      String.intercalate " "
        (pySplit (get_header [("Message-ID", "<a@x>"), ("References", "<z@x> <a@x>")]
          "References")) :=
  c6_references_idempotent [("Message-ID", "<a@x>"), ("References", "<z@x> <a@x>")] "hi"
    (by decide)

/-- C7: replying into a thread whose fetched message history is empty fails
with the missing-thread-data `ValueError` (no draft is produced), and a
thread with at least one message never takes that error branch. -/
theorem c7_empty_thread_fails (thread_id : String)
    (messages : List (List (String × String))) (body : String) :
    (messages = [] →
      create_draft_reply thread_id messages body =
        .error ("No messages found in thread " ++ thread_id)) ∧
    (messages ≠ [] →
      ∃ d, create_draft_reply thread_id messages body = .ok d) := by
  constructor
  · intro h
    subst h
    rfl
  · intro h
    cases messages with
    | nil => exact absurd rfl h
    | cons a as =>
      refine ⟨buildReplyHeaders ((a :: as).getLast (by simp)) body, ?_⟩
      simp [create_draft_reply, List.getLast?_eq_getLast (a :: as) (by simp)]

/-- C7 (witness): the theorem applied to an empty and to a one-message
thread history. -/
theorem c7_witness :
    create_draft_reply "t1" [] "hi" = .error "No messages found in thread t1" ∧
    ∃ d, create_draft_reply "t1" [[("From", "x@y")]] "hi" = .ok d :=
  ⟨by simpa using (c7_empty_thread_fails "t1" [] "hi").1 rfl,
   (c7_empty_thread_fails "t1" [[("From", "x@y")]] "hi").2 (by decide)⟩

/-- C8: the reply subject is the original prefixed with `Re: ` when
non-empty and not already lowercase-starting with `re:`; it is unchanged
when it already starts with `re:`; an empty subject stays empty; and the
built draft uses exactly this normalization of the Subject header. -/
theorem c8_subject_normalization :
    (∀ s : String,
      (s = "" → replySubject s = "") ∧
      (pyStartsWith (pyLower s) "re:" = true → replySubject s = s) ∧
      (s ≠ "" → pyStartsWith (pyLower s) "re:" = false →
        replySubject s = "Re: " ++ s)) ∧
    (∀ (headers : List (String × String)) (b : String),
      (buildReplyHeaders headers b).subject =
        replySubject (get_header headers "Subject")) := by
  constructor
  · intro s
    refine ⟨?_, ?_, ?_⟩
    · intro h
      subst h
      rfl
    · intro h
      simp [replySubject, h]
    · intro h1 h2
      simp [replySubject, h1, h2]
  · intro headers b
    rfl

/-- C8 (witness): the no-double-prefix clause at `"Re: Project Update"` and
the prefixing clause at `"Project Update"`. -/
theorem c8_witness :
    replySubject "Re: Project Update" = "Re: Project Update" ∧
    replySubject "Project Update" = "Re: Project Update" :=
  ⟨(c8_subject_normalization.1 "Re: Project Update").2.1 (by decide),
   (c8_subject_normalization.1 "Project Update").2.2 (by decide) (by decide)⟩

/-- C9 (counterexample): on the plain-text bytes `[65, 255, 66]` ("A",
invalid byte, "B") extraction returns "AB" — the undecodable byte is
dropped, not replaced: replacement would yield the three-character
"A�B". -/
theorem c9_counterexample :
    extract_body_from_payload (Payload.mk "text/plain" (some [65, 255, 66]) []) = "AB" ∧
    "AB" ≠ "A�B" ∧ ("AB" : String).length = 2 ∧ ("A�B" : String).length = 3 := by
  refine ⟨?_, by decide, by decide, by decide⟩
  rw [extract_mk_some, if_pos rfl]
  decide

/-- C9 (amended): body decoding of a `text/plain` leaf is total and never
raises — it equals UTF-8 decoding with undecodable byte sequences dropped
(`errors="ignore"`), and on bytes that strict decoding rejects (where
CPython without an error handler would raise) it still returns the text of
the valid portions. -/
theorem c9_decode_total_drops_invalid :
    (∀ bs : List Nat,
      extract_body_from_payload (Payload.mk "text/plain" (some bs) []) =
        utf8DecodeIgnore bs) ∧
    decStrict [65, 255, 66] = none ∧
    utf8DecodeIgnore [65, 255, 66] = "AB" := by
  refine ⟨?_, by decide, by decide⟩
  intro bs
  rw [extract_mk_some, if_pos rfl]

/-- C10: a tree with no body data anywhere extracts to the empty string,
and the snippet substitution happens only in `_get_message_body`, outside
the tree traversal. -/
theorem c10_bodyless_empty_snippet_outside :
    (∀ p : Payload, (∀ q ∈ allNodes p, q.bodyData = none) →
      extract_body_from_payload p = "") ∧
    (∀ msg : GmailMessage,
      get_message_body msg =
        if extract_body_from_payload msg.payload = "" then msg.snippet
        else extract_body_from_payload msg.payload) := by
  constructor
  · intro p h
    by_contra hne
    obtain ⟨q, hq, _, bs, hbs, _⟩ := extract_sound p hne
    rw [h q hq] at hbs
    cases hbs
  · intro msg
    rfl

/-- C10 (witness): the theorem applied to a bodyless two-node tree and to a
message over it whose snippet is "preview". -/
theorem c10_witness :
    extract_body_from_payload
      (Payload.mk "multipart/mixed" none [Payload.mk "text/plain" none []]) = "" ∧
    get_message_body
      { payload := Payload.mk "multipart/mixed" none [Payload.mk "text/plain" none []],
        snippet := "preview" } =
      if extract_body_from_payload
          (Payload.mk "multipart/mixed" none [Payload.mk "text/plain" none []]) = "" then
        "preview"
      else
        extract_body_from_payload
          (Payload.mk "multipart/mixed" none [Payload.mk "text/plain" none []]) :=
  ⟨c10_bodyless_empty_snippet_outside.1 _
    (by
      intro q hq
      simp [allNodes, allNodesList] at hq
      rcases hq with h | h <;> subst h <;> rfl),
   c10_bodyless_empty_snippet_outside.2 _⟩

end EmailMcp
